import Mathlib

/-! Verification of the CB-Tumblebug MCI orchestration core against its
natural-language specification.  The Go source is shallowly embedded:
pure helpers become Lean functions, the KV store becomes an explicit
association list threaded through the state-touching operations, machine
integers become Nat (no overflow is reachable in the modelled code), and
float64 failure rates become exact rationals (the code only compares the
rate against the literals 0.8 and 0.5, and all inputs exercised here are
far from any double-rounding boundary).
-/

namespace CbTumblebug

/-! Section: Status and action constants

The string constants live in packages of this repository that are not under
the extracted sources (`model` constants file); their values are fixed by
the status alphabet of the spec (invariant 3) and by the source comment at
manageInfo line 1254 which shows the completed target status/action
rendered as "None". -/

def StatusFailed : String := "Failed"

def StatusSuspended : String := "Suspended"

def StatusRunning : String := "Running"

def StatusTerminated : String := "Terminated"

def StatusCreating : String := "Creating"

def StatusSuspending : String := "Suspending"

def StatusResuming : String := "Resuming"

def StatusRebooting : String := "Rebooting"

def StatusTerminating : String := "Terminating"

def StatusUndefined : String := "Undefined"

/-- Modelled from the spec: the sentinel stored in `targetStatus` once the
control operation finished ("targetStatus←Complete"); the constant itself is
defined outside the extracted sources, and the source comment at line 1254
shows its rendered value "None".  Only its distinctness from the VM status
alphabet matters for the claims. -/
def StatusComplete : String := "None"

/-- Modelled from the spec: the sentinel stored in `targetAction` once the
control operation finished ("targetAction←Complete"); see `StatusComplete`. -/
def ActionComplete : String := "None"

def ActionCreate : String := "Create"

def ActionTerminate : String := "Terminate"

def ActionResume : String := "Resume"

def ActionReboot : String := "Reboot"

def ActionRefine : String := "Refine"

/-- ASCII lowercase conversion of one character; the Go `strings.ToLower`
and `strings.EqualFold` are applied only to ASCII option strings and
version identifiers in the modelled code. -/
def asciiLower (c : Char) : Char :=
  if 'A' ≤ c ∧ c ≤ 'Z' then Char.ofNat (c.toNat + 32) else c

/-- Embedding of Go `strings.ToLower` (`common.ToLower`) restricted to
ASCII. -/
def strToLower (s : String) : String :=
  String.mk (s.toList.map asciiLower)

/-- Embedding of the Go helper `contains` (part_002 line 2576): membership
test on a string slice. -/
def listContains (slice : List String) (item : String) : Bool :=
  slice.any (fun s => s == item)

/-- Embedding of Go `strings.Contains`: `sub` occurs somewhere inside `s`.
Implemented as: some suffix of `s` has `sub` as a prefix. -/
def strContains (s sub : String) : Bool :=
  (s.toList.tails).any (fun t => sub.toList.isPrefixOf t)

/-! Section: Provisioning history and risk analyzer (§4.D)

Data model of `model.ProvisioningLog` restricted to the fields the analyzer
and the event recorder read or write.  `AdditionalInfo` is a string map in
the source used only for the key "lastMciId" in the modelled functions, so
it is embedded as one optional field; `LastUpdated` is a wall-clock stamp
set by `SaveProvisioningLog` and read by nothing modelled here. -/

structure ProvisioningLog where
  specId : String := ""
  failureCount : Nat := 0
  successCount : Nat := 0
  failureTimestamps : List Nat := []
  successTimestamps : List Nat := []
  failureImages : List String := []
  successImages : List String := []
  failureMessages : List String := []
  lastMciId : Option String := none
deriving Repr, DecidableEq

structure ProvisioningEvent where
  specId : String := ""
  cspImageName : String := ""
  isSuccess : Bool := false
  errorMessage : String := ""
  timestamp : Nat := 0
  vmName : String := ""
  mciId : String := ""
deriving Repr, DecidableEq

structure SpecRiskInfo where
  level : String
  message : String
  failedImageCount : Nat := 0
  succeededImageCount : Nat := 0
  totalFailures : Nat := 0
  totalSuccesses : Nat := 0
  failureRate : ℚ := 0
deriving Repr, DecidableEq

structure ImageRiskInfo where
  level : String
  message : String
  hasFailedWithSpec : Bool := false
  hasSucceededWithSpec : Bool := false
  isNewCombination : Bool := false
deriving Repr, DecidableEq

structure OverallRiskInfo where
  level : String
  message : String
  primaryRiskFactor : String
deriving Repr, DecidableEq

structure RiskAnalysis where
  specRisk : SpecRiskInfo
  imageRisk : ImageRiskInfo
  overallRisk : OverallRiskInfo
  recommendations : List String
deriving Repr, DecidableEq

/-! The float64 `failureRate` of the analyzer is always the exact quotient
`failureCount / (failureCount + successCount)`, so its comparisons against
the literals 0.8, 0.5 and 0 are embedded exactly as cross-multiplied
integer comparisons on the two counts, guarded by a positive denominator
(a zero denominator makes the Go quotient NaN, for which every such
comparison is false).  `Rat` arithmetic is avoided in every decision path
because the kernel cannot normalize it; the ℚ quotient is still stored in
the `failureRate` record field. -/

/-- The float comparison `failureRate ≥ p10/10` on the exact rate
`fc / (fc + sc)`. -/
def rateGe (fc sc p10 : Nat) : Prop :=
  0 < fc + sc ∧ p10 * (fc + sc) ≤ 10 * fc

instance (fc sc p10 : Nat) : Decidable (rateGe fc sc p10) := by
  unfold rateGe
  infer_instance

/-- Rendering of the rate `fc / (fc + sc)` as a percentage with one
decimal, standing in for the Go `fmt.Sprintf` verb `%.1f` applied to
`rate*100` (ties round up here instead of to even; no claim inspects these
message substrings). -/
def fmtPct (fc sc : Nat) : String :=
  let t : Nat := (2000 * fc + (fc + sc)) / (2 * (fc + sc))
  toString (t / 10) ++ "." ++ toString (t % 10)

/-- Level component of `analyzeSpecRisk` (part_002 lines 6367-6411).  The
source computes level and message through one if-chain; the chain is split
here into a level function and a message function over the identical
conditions. -/
def analyzeSpecRiskLevel (failedImageCount succeededImageCount totalFailures
    totalSuccesses : Nat) : String :=
  if failedImageCount ≥ 10 then "high"
  else if failedImageCount ≥ 5 then "medium"
  else if failedImageCount ≥ 3 ∧ succeededImageCount = 0 then "medium"
  else if rateGe totalFailures totalSuccesses 8 then "high"
  else if rateGe totalFailures totalSuccesses 5 then "medium"
  else if 0 < totalFailures + totalSuccesses ∧ 0 < totalFailures then "low"
  else "low"

/-- Message component of `analyzeSpecRisk`; same condition chain as
`analyzeSpecRiskLevel`. -/
def analyzeSpecRiskMessage (failedImageCount succeededImageCount totalFailures
    totalSuccesses : Nat) : String :=
  if failedImageCount ≥ 10 then
    "Spec-level issue detected: " ++ toString failedImageCount ++
      " different images have failed with this spec (" ++ fmtPct totalFailures totalSuccesses ++
      "% failure rate). This suggests the spec itself may be problematic"
  else if failedImageCount ≥ 5 then
    "Possible spec-level issue: " ++ toString failedImageCount ++
      " different images have failed with this spec (" ++ fmtPct totalFailures totalSuccesses ++
      "% failure rate). Consider checking spec compatibility"
  else if failedImageCount ≥ 3 ∧ succeededImageCount = 0 then
    "Potential spec-level issue: " ++ toString failedImageCount ++
      " different images have failed with this spec and none have succeeded (" ++
      fmtPct totalFailures totalSuccesses ++ "% failure rate)"
  else if rateGe totalFailures totalSuccesses 8 then
    "Very high failure rate (" ++ fmtPct totalFailures totalSuccesses ++
      "%) for this spec, even with some successful images"
  else if rateGe totalFailures totalSuccesses 5 then
    "Moderate failure rate (" ++ fmtPct totalFailures totalSuccesses ++
      "%) for this spec across different images"
  else if 0 < totalFailures + totalSuccesses ∧ 0 < totalFailures then
    "Low failure rate (" ++ fmtPct totalFailures totalSuccesses ++
      "%) for this spec, mostly successful with various images"
  else "No failures recorded for this spec, appears stable"

/-- Embedding of `analyzeSpecRisk` (part_002 lines 6367-6411); the ℚ
argument is the exact value of the `failureRate` parameter of the source and is
stored in the record, while the comparisons on it are carried out exactly
on the counts (see above). -/
def analyzeSpecRisk (failedImageCount succeededImageCount totalFailures
    totalSuccesses : Nat) (failureRate : ℚ) : SpecRiskInfo :=
  { level := analyzeSpecRiskLevel failedImageCount succeededImageCount
      totalFailures totalSuccesses
    message := analyzeSpecRiskMessage failedImageCount succeededImageCount
      totalFailures totalSuccesses
    failedImageCount := failedImageCount
    succeededImageCount := succeededImageCount
    totalFailures := totalFailures
    totalSuccesses := totalSuccesses
    failureRate := failureRate }

/-- Embedding of `analyzeImageRisk` (part_002 lines 6414-6449). -/
def analyzeImageRisk (imageHasFailed imageHasSucceeded isNewCombination : Bool)
    (cspImageName : String) : ImageRiskInfo :=
  let lm : String × String :=
    if imageHasFailed then
      if !imageHasSucceeded then
        ("high", "CRITICAL: This exact spec+image combination (" ++ cspImageName ++
          ") has failed before and never succeeded")
      else
        ("high", "HIGH RISK: This exact spec+image combination (" ++ cspImageName ++
          ") has failed at least once before, despite some successes")
    else if imageHasSucceeded && !imageHasFailed then
      ("low", "SAFE: This exact spec+image combination (" ++ cspImageName ++
        ") has previously succeeded and never failed")
    else if isNewCombination then
      ("low", "NEW: This exact spec+image combination (" ++ cspImageName ++
        ") has never been tried before")
    else ("low", "No specific image risk identified")
  { level := lm.1
    message := lm.2
    hasFailedWithSpec := imageHasFailed
    hasSucceededWithSpec := imageHasSucceeded
    isNewCombination := isNewCombination }

/-- Embedding of `getRiskValue` (part_002 lines 6553-6564). -/
def getRiskValue (riskLevel : String) : Nat :=
  if riskLevel = "high" then 3
  else if riskLevel = "medium" then 2
  else if riskLevel = "low" then 1
  else 0

/-- Embedding of `determineOverallRisk` (part_002 lines 6452-6487). -/
def determineOverallRisk (specRisk : SpecRiskInfo) (imageRisk : ImageRiskInfo) :
    OverallRiskInfo :=
  let specRiskValue := getRiskValue specRisk.level
  let imageRiskValue := getRiskValue imageRisk.level
  let base : String × String × String :=
    if specRiskValue ≥ imageRiskValue then
      (specRisk.level, "spec",
        if specRiskValue > imageRiskValue then
          "Primary risk is spec-related: " ++ specRisk.message
        else
          "Both spec and image have similar risk levels. Spec: " ++ specRisk.message)
    else
      (imageRisk.level, "image", "Primary risk is image-related: " ++ imageRisk.message)
  let afterSpecial : String × String :=
    if specRisk.level = "low" ∧ imageRisk.level = "low" then
      ("none", "Both spec and image appear safe based on historical data")
    else if imageRisk.isNewCombination ∧ specRisk.level ≠ "low" then
      ("combination",
        "New image combination with a spec that has shown issues: " ++ specRisk.message)
    else (base.2.1, base.2.2)
  { level := base.1
    message := afterSpecial.2
    primaryRiskFactor := afterSpecial.1 }

/-- Embedding of `generateRecommendations` (part_002 lines 6490-6550). -/
def generateRecommendations (specRisk : SpecRiskInfo) (imageRisk : ImageRiskInfo)
    (overallRisk : OverallRiskInfo) : List String :=
  let byFactor : List String :=
    if overallRisk.primaryRiskFactor = "spec" then
      if specRisk.level = "high" then
        ["Consider changing to a different VM specification",
         "Check if this spec is available and properly configured in the target region"] ++
        (if specRisk.failedImageCount ≥ 5 then
          ["Multiple images have failed with this spec - likely a spec-level compatibility issue"]
         else [])
      else if specRisk.level = "medium" then
        ["Monitor deployment closely - this spec has shown some issues",
         "Consider having a backup spec ready"]
      else []
    else if overallRisk.primaryRiskFactor = "image" then
      if imageRisk.level = "high" then
        if imageRisk.hasFailedWithSpec ∧ ¬imageRisk.hasSucceededWithSpec then
          ["CRITICAL: This exact spec+image combination has failed before and NEVER succeeded",
           "STRONGLY RECOMMEND: Use a different image immediately",
           "Find alternative images with same OS/application requirements"]
        else if imageRisk.hasFailedWithSpec ∧ imageRisk.hasSucceededWithSpec then
          ["HIGH RISK: This exact combination has failed at least once before",
           "CAUTION: Even though it succeeded sometimes, failure history indicates instability",
           "Consider using a more reliable image or test extensively before production"]
        else []
      else if imageRisk.level = "medium" then
        ["This image has mixed results with this spec - proceed with caution"]
      else []
    else if overallRisk.primaryRiskFactor = "combination" then
      ["This is a new spec+image combination",
       "Monitor closely as there\u0027s no historical data for this combination"] ++
      (if specRisk.level ≠ "low" then
        ["Consider that this spec has shown issues with other images"]
       else [])
    else if overallRisk.primaryRiskFactor = "none" then
      ["Both spec and image appear safe based on historical data",
       "Continue with standard monitoring"]
    else
      ["Monitor deployment and record results for future analysis"]
  let withImageWarning : List String :=
    byFactor ++
      (if imageRisk.hasFailedWithSpec then
        ["IMPORTANT: This exact spec+image combination has failure history - high caution advised"]
       else [])
  withImageWarning ++
    (if overallRisk.level = "high" then
      ["HIGH RISK DEPLOYMENT - Consider testing in development environment first",
       "Ensure robust rollback plans and monitoring are in place"]
     else if overallRisk.level = "medium" then
      ["Medium risk - ensure proper monitoring and rollback plans are in place"]
     else [])

/-- Embedding of `AnalyzeProvisioningRiskDetailed` (part_002 lines 6261-6364)
applied to the result of `GetProvisioningLog` (`none` covers both the
missing-log and the deleted-corrupted-log outcomes; the backend-error branch
of the source returns the same shape of low-risk analysis). -/
def analyzeProvisioningRiskDetailed (provisioningLog : Option ProvisioningLog)
    (cspImageName : String) : RiskAnalysis :=
  match provisioningLog with
  | none =>
    { specRisk := { level := "low"
                    message := "No previous provisioning history available for this spec" }
      imageRisk := { level := "low"
                     message := "No previous history for this image with this spec"
                     isNewCombination := true }
      overallRisk := { level := "low"
                       message := "No previous provisioning history available"
                       primaryRiskFactor := "none" }
      recommendations := ["This is a new spec, monitor deployment closely"] }
  | some plog =>
    let totalAttempts := plog.failureCount + plog.successCount
    if totalAttempts = 0 then
      { specRisk := { level := "low"
                      message := "No provisioning attempts recorded for this spec" }
        imageRisk := { level := "low"
                       message := "No attempts with this image on this spec"
                       isNewCombination := true }
        overallRisk := { level := "low"
                         message := "No provisioning attempts recorded"
                         primaryRiskFactor := "none" }
        recommendations := ["First deployment with this configuration, proceed with monitoring"] }
    else
      let failureRate : ℚ := (plog.failureCount : ℚ) / ((plog.failureCount + plog.successCount : Nat) : ℚ)
      let imageHasFailed := listContains plog.failureImages cspImageName
      let imageHasSucceeded := listContains plog.successImages cspImageName
      let isNewCombination := !imageHasFailed && !imageHasSucceeded
      let failedImageCount := plog.failureImages.length
      let succeededImageCount := plog.successImages.length
      let specRisk := analyzeSpecRisk failedImageCount succeededImageCount
        plog.failureCount plog.successCount failureRate
      let imageRisk := analyzeImageRisk imageHasFailed imageHasSucceeded
        isNewCombination cspImageName
      let overallRisk := determineOverallRisk specRisk imageRisk
      { specRisk := specRisk
        imageRisk := imageRisk
        overallRisk := overallRisk
        recommendations := generateRecommendations specRisk imageRisk overallRisk }

/-- Embedding of the event-applying part of `RecordProvisioningEvent`
(part_002 lines 6091-6176).  The argument `existingLog` is the outcome of
`GetProvisioningLog` (the store-reading step is modelled separately, see
`getProvisioningLogKv`); `none` makes the function build the fresh log the
source creates from the spec record (whose connection fields are irrelevant
to every claim and are kept at their defaults).  The result is the log
passed to `SaveProvisioningLog`, or `none` when the source returns without
saving (a success event with no previous failures). -/
def recordProvisioningEvent (existingLog : Option ProvisioningLog)
    (event : ProvisioningEvent) : Option ProvisioningLog :=
  let provisioningLog := existingLog.getD { specId := event.specId }
  let updated : Option ProvisioningLog :=
    if event.isSuccess then
      if provisioningLog.failureCount > 0 then
        some { provisioningLog with
          successCount := provisioningLog.successCount + 1
          successTimestamps := provisioningLog.successTimestamps ++ [event.timestamp]
          successImages :=
            if event.cspImageName ≠ "" ∧
                ¬ (listContains provisioningLog.successImages event.cspImageName) then
              provisioningLog.successImages ++ [event.cspImageName]
            else provisioningLog.successImages }
      else none
    else
      some { provisioningLog with
        failureCount := provisioningLog.failureCount + 1
        failureTimestamps := provisioningLog.failureTimestamps ++ [event.timestamp]
        failureMessages :=
          if event.errorMessage ≠ "" then
            provisioningLog.failureMessages ++ [event.errorMessage]
          else provisioningLog.failureMessages
        failureImages :=
          if event.cspImageName ≠ "" ∧
              ¬ (listContains provisioningLog.failureImages event.cspImageName) then
            provisioningLog.failureImages ++ [event.cspImageName]
          else provisioningLog.failureImages }
  match updated with
  | none => none
  | some plog =>
    some (if event.mciId ≠ "" then { plog with lastMciId := some event.mciId } else plog)

/-! Section: KV store model (§4.A) for the state-touching log reads

The store is an association list from keys to stored values.  A stored
value is classified the way `GetProvisioningLog` classifies it: the empty
string, a string that fails JSON decoding, or a well-formed serialized
`ProvisioningLog` (JSON (de)serialization itself is external library code;
the classification is all the source branches on). -/

inductive KvVal where
  | emptyVal : KvVal
  | corruptVal : KvVal
  | logVal (plog : ProvisioningLog) : KvVal
deriving Repr, DecidableEq

def KvStore : Type := List (String × KvVal)

def kvLookup (store : KvStore) (key : String) : Option KvVal :=
  match store with
  | [] => none
  | (k, v) :: rest => if k = key then some v else kvLookup rest key

def kvDelete (store : KvStore) (key : String) : KvStore :=
  match store with
  | [] => []
  | (k, v) :: rest => if k = key then kvDelete rest key else (k, v) :: kvDelete rest key

/-- Embedding of `generateProvisioningLogKey` (part_002 lines 5999-6002);
`url.QueryEscape` is injective and is the identity on every spec id used
here, so it is elided. -/
def provisioningLogKey (specId : String) : String :=
  "/log/provision/" ++ specId

/-- Embedding of `GetProvisioningLog` (part_002 lines 6005-6050) as a state
transformer: returns the decoded log (or `none`) together with the store
after the call.  A corrupted value is deleted; a missing key, an empty
value and a well-formed value leave the store untouched. -/
def getProvisioningLogKv (store : KvStore) (specId : String) :
    Option ProvisioningLog × KvStore :=
  match kvLookup store (provisioningLogKey specId) with
  | none => (none, store)
  | some KvVal.emptyVal => (none, store)
  | some KvVal.corruptVal => (none, kvDelete store (provisioningLogKey specId))
  | some (KvVal.logVal plog) => (some plog, store)

/-- Store effect of `ReviewMciDynamicReq` (part_002 lines 4300-4760): for
each VM request whose `commonSpec` resolves (`GetSpec` succeeded, the flag
in the pair), the review runs the risk analyzer, whose only store access is
`GetProvisioningLog` on that spec.  Every other call the review makes
(`CheckMci`, `GetSpec`, `LookupSpec`, `LookupImage`, `GetConnConfig`) only
reads.  The VM goroutines touch disjoint effects except for same-spec
re-reads, which commute, so the parallel fan-out is serialized here. -/
def reviewMciDynamicReqStore (store : KvStore) (vmReqs : List (String × Bool)) :
    KvStore :=
  match vmReqs with
  | [] => store
  | (commonSpec, specFound) :: rest =>
    let store1 := if specFound then (getProvisioningLogKv store commonSpec).2 else store
    reviewMciDynamicReqStore store1 rest

/-! Section: MCI status derivation (GetMcisStatus, part_002 lines 825-883) -/

/-- The status-ordering array `statusFlagStr` of `GetMcisStatus`
(part_002 line 826). -/
def statusFlagStr : List String :=
  [StatusFailed, StatusSuspended, StatusRunning, StatusTerminated, StatusCreating,
   StatusSuspending, StatusResuming, StatusRebooting, StatusTerminating, StatusUndefined]

/-- Bucket index assigned to one VM status by the switch at part_002
lines 829-850 (default bucket 9 collects everything unlisted, including
`StatusUndefined`). -/
def bucketIdx (s : String) : Nat :=
  if s = StatusFailed then 0
  else if s = StatusSuspended then 1
  else if s = StatusRunning then 2
  else if s = StatusTerminated then 3
  else if s = StatusCreating then 4
  else if s = StatusSuspending then 5
  else if s = StatusResuming then 6
  else if s = StatusRebooting then 7
  else if s = StatusTerminating then 8
  else 9

/-- Count of VMs in bucket `i` (the `statusFlag` array). -/
def statusCount (l : List String) (i : Nat) : Nat :=
  l.countP (fun s => bucketIdx s == i)

def statusFlag (l : List String) : List Nat :=
  (List.range 10).map (statusCount l)

/-- The scan at part_002 lines 853-860: running maximum with the index of
the first strict improvement, i.e. the least index attaining the maximum. -/
def maxScan : List Nat → Nat → Nat → Nat → Nat × Nat
  | [], _, m, mi => (m, mi)
  | v :: rest, i, m, mi =>
    if m < v then maxScan rest (i + 1) v i else maxScan rest (i + 1) m mi

def mciArgmax (l : List String) : Nat × Nat :=
  maxScan (statusFlag l) 0 0 0

/-- Structured form of the derived MCI status string: whether it carries
the "Partial-" prefix, the status name shown, and the count shown. -/
structure MciStatusParts where
  isMixed : Bool
  dominant : String
  count : Nat
deriving Repr, DecidableEq

/-- The string-shaping logic of part_002 lines 862-883 in structured form:
first the dominant-status rendering (three-way branch on `tmpMax` against
`numVm`; the third branch of the source is unreachable because every bucket
count is at most `numVm`), then the Failed override. -/
def mciStatusParts (l : List String) : MciStatusParts :=
  let mm := mciArgmax l
  let numVm := l.length
  let base : MciStatusParts :=
    if mm.1 = numVm then ⟨false, statusFlagStr.getD mm.2 "", mm.1⟩
    else if mm.1 < numVm then ⟨true, statusFlagStr.getD mm.2 "", mm.1⟩
    else ⟨false, StatusUndefined, mm.1⟩
  let failed := statusCount l 0
  if 0 < failed then
    (if failed = numVm then ⟨false, StatusFailed, failed⟩
     else ⟨true, StatusFailed, failed⟩)
  else base

def renderMciStatus (p : MciStatusParts) (running numVm : Nat) : String :=
  (if p.isMixed then "Partial-" else "") ++ p.dominant ++ ":" ++ toString p.count ++
    " (R:" ++ toString running ++ "/" ++ toString numVm ++ ")"

/-- The derived `mcisStatus.Status` string of `GetMcisStatus` as a function
of the (nonempty) list of current VM statuses. -/
def getMcisStatusString (l : List String) : String :=
  renderMciStatus (mciStatusParts l) (statusCount l 2) l.length

/-! Section: DelMcis (part_002 lines 1660-1837)

The deletion flow is modelled as a trace of its externally visible steps
plus an optional refusal.  VM statuses after the in-flow terminate action
are an input (`post`): the effect of `HandleMcisAction` on the CSP is
outside this model, and the source re-reads the statuses after sleeping.
Both status gates in the source are substring tests on the derived status
string; on the grammar produced by `renderMciStatus` (a status name from
`statusFlagStr`, a colon, decimal digits and the " (R:d/d)" tail, with an
optional "Partial-" prefix) the test `!Contains(s,"Partial-") &&
Contains(s,Name)` holds exactly when the structured form has `isMixed =
false` and `dominant = Name`, because no status name is a proper substring
of another and the numeric tail contains no letters; the gates below test
the structured form directly. -/

inductive DelStep where
  | refineStep : DelStep
  | terminateStep : DelStep
  | sleep5Step : DelStep
  | deletePolicyStep : DelStep
  | deleteVmsStep : DelStep
  | deleteSubGroupsStep : DelStep
  | deleteNlbStep : DelStep
  | deleteMciStep : DelStep
deriving Repr, DecidableEq

/-- The deletion steps of part_002 lines 1734-1834 (policy, VMs with their
back-references, sub-groups, NLBs, the MCI record). -/
def delMcisDeletionSteps : List DelStep :=
  [DelStep.deletePolicyStep, DelStep.deleteVmsStep, DelStep.deleteSubGroupsStep,
   DelStep.deleteNlbStep, DelStep.deleteMciStep]

/-- `GetMcisStatus` as consumed by `DelMcis`: an MCIS with no VMs yields
the empty `McisStatusInfo` (part_002 lines 796-798), whose `Id` is empty,
modelled as `none`. -/
def mciStatusOpt (l : List String) : Option MciStatusParts :=
  if l.isEmpty then none else some (mciStatusParts l)

/-- Gate at part_002 line 1696: the MCIS is already (fully) terminated. -/
def alreadyTerminatedGate (o : Option MciStatusParts) : Bool :=
  match o with
  | none => false
  | some p => !p.isMixed && p.dominant == StatusTerminated

/-- Gate at part_002 line 1724: deletion is allowed (the check is skipped
when `Id` is empty). -/
def deletableGate (o : Option MciStatusParts) : Bool :=
  match o with
  | none => true
  | some p =>
    !p.isMixed && (p.dominant == StatusTerminated || p.dominant == StatusUndefined ||
      p.dominant == StatusFailed)

structure DelMcisResult where
  trace : List DelStep
  err : Option String
deriving Repr, DecidableEq

/-- Whether `DelMcis` enters the in-flow refine/terminate branch
(part_002 lines 1696-1719). -/
def delMcisRunsTerminate (option : String) (pre : List String) : Bool :=
  !(alreadyTerminatedGate (mciStatusOpt pre)) && strToLower option == "terminate"

/-- The VM statuses the final gate of `DelMcis` examines. -/
def delMcisFinalVms (option : String) (pre post : List String) : List String :=
  if delMcisRunsTerminate option pre then post else pre

/-- Embedding of `DelMcis` (part_002 lines 1660-1837).  `pre` is the list
of VM statuses when the call starts, `post` the list after the in-flow
refine/terminate/sleep (equal to `pre` when that branch does not run).
`CheckString`/`CheckMcis` validation is assumed to pass (the claims
quantify over existing MCIs), and the refine/terminate sub-actions are
assumed not to error, as their failure modes live outside the model. -/
def delMcis (option : String) (pre post : List String) : DelMcisResult :=
  let opt := strToLower option
  let runTerm := delMcisRunsTerminate option pre
  let preSteps : List DelStep :=
    if runTerm then [DelStep.refineStep, DelStep.terminateStep, DelStep.sleep5Step] else []
  let finalStatus := mciStatusOpt (delMcisFinalVms option pre post)
  if deletableGate finalStatus || opt == "force" then
    ⟨preSteps ++ delMcisDeletionSteps, none⟩
  else
    ⟨preSteps, some "Deletion is not allowed (use option=force for force deletion)"⟩

/-! Section: Status reconciler finalization (FetchVmStatus, part_002 lines 1256-1296) -/

/-- The fields of `TbVmStatusInfo` the finalization step reads or writes
(`vmStatusTmp` merged with the `temp` VM record it is persisted into). -/
structure VmStatusRec where
  status : String
  targetStatus : String
  targetAction : String
  systemMessage : String
  publicIp : String
  sshPort : String
deriving Repr, DecidableEq

/-- Embedding of part_002 lines 1256-1296: the state of the record after
the `TargetStatus == Status` finalization, as persisted by `UpdateVmInfo`.
`rec` carries the already-reconciled status; `freshIp`/`freshPort` are what
`GetVmCurrentPublicIp` would return (the source copies them into the
persisted record only on the non-Terminated finalization path; on every
other path the previously stored values are kept). -/
def fetchVmStatusFinalize (rec : VmStatusRec) (freshIp freshPort : String) :
    VmStatusRec :=
  if rec.targetStatus = rec.status then
    if rec.targetStatus ≠ StatusTerminated then
      { rec with
        systemMessage := rec.targetStatus ++ "==" ++ rec.status
        targetStatus := StatusComplete
        targetAction := ActionComplete
        publicIp := freshIp
        sshPort := freshPort }
    else
      { rec with
        targetStatus := StatusTerminated
        targetAction := ActionTerminate
        status := StatusTerminated
        systemMessage := "terminated VM. No action is acceptable except deletion" }
  else rec

/-! Section: K8s version recommendation (getK8sRecommendVersion, part_002
lines 5510-5553)

`common.FilterDigitsAndDots`, `common.CompareVersions` and
`common.GetAvailableK8sVersion` live outside the extracted sources and are
modelled from the spec; the decision structure of the recommendation (the
two loops, their break points and the error case) is embedded from the
source. -/

/-- Modelled from the spec: `common.FilterDigitsAndDots` is not under the
extracted sources; the spec calls its result the "digits-and-dots-filtered
form" of a version string, so every character that is neither a decimal
digit nor a dot is dropped. -/
def filterDigitsAndDots (s : String) : String :=
  String.mk (s.toList.filter (fun c => c.isDigit || c == '.'))

/-- Embedding of Go `strings.EqualFold` restricted to ASCII, which covers
every version identifier in the capability table. -/
def equalFold (a b : String) : Bool :=
  strToLower a == strToLower b

/-- Embedding of Go `strings.HasPrefix`. -/
def strIsPrefixOf (a b : String) : Bool :=
  a.toList.isPrefixOf b.toList

/-- Split a character list at dots (Go `strings.Split` on "."). -/
def splitDots : List Char → List (List Char)
  | [] => [[]]
  | c :: rest =>
    match splitDots rest with
    | [] => [[]]
    | seg :: segs => if c == '.' then [] :: seg :: segs else (c :: seg) :: segs

/-- Decimal value of a digit segment (an empty or non-numeric segment
counts as its digit-weighted value, 0 when empty; only digit segments
occur on filtered version strings). -/
def digitsVal (cs : List Char) : Nat :=
  cs.foldl (fun acc c => acc * 10 + (c.toNat - 48)) 0

/-- Numeric segments of a version string: split on dots, each segment read
as a decimal number. -/
def verSegs (s : String) : List Nat :=
  (splitDots s.toList).map digitsVal

/-- Trailing zero segments are insignificant ("1.2" and "1.2.0" compare
equal). -/
def canonSegs (l : List Nat) : List Nat :=
  (l.reverse.dropWhile (fun x => x == 0)).reverse

/-- Lexicographic strict order on segment lists. -/
def segLt : List Nat → List Nat → Bool
  | [], [] => false
  | [], _ :: _ => true
  | _ :: _, [] => false
  | x :: xs, y :: ys => if x < y then true else if y < x then false else segLt xs ys

/-- Modelled from the spec: `common.CompareVersions v1 v2 < 0` is not under
the extracted sources; the spec wording "overall highest available version" fixes
it to a numeric ordering of dot-separated segments, with trailing zero
segments insignificant. -/
def compareVersionsLt (a b : String) : Bool :=
  segLt (canonSegs (verSegs a)) (canonSegs (verSegs b))

/-- The `reqVersion == ""` loop of `getK8sRecommendVersion` (part_002
lines 5521-5529): keep the available version whenever it compares strictly
above the current candidate (both sides digits-and-dots-filtered). -/
def k8sHighestLoop (avail : List String) (recVersion : String) : String :=
  avail.foldl
    (fun acc verDetail =>
      if compareVersionsLt (filterDigitsAndDots acc) (filterDigitsAndDots verDetail) then
        verDetail
      else acc)
    recVersion

/-- The `reqVersion != ""` loop of `getK8sRecommendVersion` (part_002
lines 5530-5544): stop at the first available version that matches the
request, case-insensitively verbatim or by filtered prefix; the former
returns the version id itself, the latter its filtered form. -/
def k8sReqLoop (reqVersion : String) : List String → String
  | [] => ""
  | verDetail :: rest =>
    if equalFold reqVersion verDetail then verDetail
    else
      if strIsPrefixOf (filterDigitsAndDots reqVersion) (filterDigitsAndDots verDetail) then
        filterDigitsAndDots verDetail
      else k8sReqLoop reqVersion rest

/-- Error message of part_002 lines 5547-5550; when the loops complete
without a break the accumulated `versionIdList` holds every available
version id. -/
def k8sNoVersionMsg (providerName regionName : String) (avail : List String) : String :=
  "Available K8sCluster Version(k8sclusterinfo.yaml) for Provider/Region(" ++
    providerName ++ "/" ++ regionName ++ "): " ++ String.intercalate ", " avail

/-- Embedding of `getK8sRecommendVersion` (part_002 lines 5510-5553), with
the available-version table (the ids `GetAvailableK8sVersion` returns for
the provider/region) passed in as `avail`. -/
def getK8sRecommendVersion (providerName regionName : String)
    (avail : List String) (reqVersion : String) : Except String String :=
  let recVersion := if reqVersion == "" then k8sHighestLoop avail "" else k8sReqLoop reqVersion avail
  if equalFold recVersion "" then
    Except.error (k8sNoVersionMsg providerName regionName avail)
  else Except.ok recVersion

/-! Section: Recording provisioning events from a finished MCI
(RecordProvisioningEventsFromMci, part_002 lines 6179-6244) -/

structure VmCreationError where
  vmName : String
  error : String
deriving Repr, DecidableEq

structure MciCreationErrors where
  vmObjectCreationErrors : List VmCreationError
  vmCreationErrors : List VmCreationError
deriving Repr, DecidableEq

structure TbVmInfoLite where
  id : String
  specId : String
  cspImageName : String
  status : String
deriving Repr, DecidableEq

structure TbMciInfoLite where
  id : String
  vm : List TbVmInfoLite
  creationErrors : Option MciCreationErrors
deriving Repr, DecidableEq

/-- The match test of part_002 lines 6200 and 6207. -/
def vmErrMatch (vmId : String) (e : VmCreationError) : Bool :=
  e.vmName == vmId || strContains e.vmName vmId

/-- The error-message lookup of part_002 lines 6196-6212: scan
`VmCreationErrors` for the first match, then let a match in
`VmObjectCreationErrors` overwrite it. -/
def lookupVmErrorMessage (creationErrors : Option MciCreationErrors)
    (vmId : String) : String :=
  match creationErrors with
  | none => ""
  | some errs =>
    let fromVmErrors :=
      match errs.vmCreationErrors.find? (vmErrMatch vmId) with
      | some e => e.error
      | none => ""
    match errs.vmObjectCreationErrors.find? (vmErrMatch vmId) with
    | some e => e.error
    | none => fromVmErrors

/-- Construction of the provisioning event of one VM (part_002 lines 6189-6228). -/
def buildProvisioningEvent (mci : TbMciInfoLite) (vm : TbVmInfoLite) (now : Nat) :
    ProvisioningEvent :=
  let isSuccess := vm.status == StatusRunning
  let errorMessage :=
    if isSuccess then ""
    else
      let found := lookupVmErrorMessage mci.creationErrors vm.id
      if found = "" then "VM creation failed with status: " ++ vm.status else found
  { specId := vm.specId
    cspImageName := vm.cspImageName
    isSuccess := isSuccess
    errorMessage := errorMessage
    timestamp := now
    vmName := vm.id
    mciId := mci.id }

/-- Embedding of `RecordProvisioningEventsFromMci` (part_002 lines
6179-6244) as the list of events handed to `RecordProvisioningEvent`, one
per VM in order. -/
def recordProvisioningEventsFromMci (mci : TbMciInfoLite) (now : Nat) :
    List ProvisioningEvent :=
  mci.vm.map (fun vm => buildProvisioningEvent mci vm now)

/-! Section: Claim-side formalizations

The following definitions transcribe claims of the specification in the
own words of the claims, to be compared against the embedded source functions
above. -/

/-- Spec-risk rule exactly as the spec states it: high if at least 10
distinct failed images OR failure rate at least 0.8; medium if at least 5
failed images, or at least 3 failed images with zero succeeded images, or
failure rate at least 0.5; low otherwise. -/
def claimSpecRiskLevel (failedImageCount succeededImageCount failureCount
    successCount : Nat) : String :=
  if failedImageCount ≥ 10 ∨ rateGe failureCount successCount 8 then "high"
  else if failedImageCount ≥ 5 ∨ (failedImageCount ≥ 3 ∧ succeededImageCount = 0) ∨
      rateGe failureCount successCount 5 then "medium"
  else "low"

/-- Amended spec-risk rule: same thresholds, but checked in the source
order, so the 5-image and 3-image-no-success checks take precedence over
the failure-rate checks. -/
def amendedSpecRiskLevel (failedImageCount succeededImageCount failureCount
    successCount : Nat) : String :=
  analyzeSpecRiskLevel failedImageCount succeededImageCount failureCount successCount

/-- The claimed "maximum of the two levels (ordering low < medium < high)". -/
def levelMaxClaim (a b : String) : String :=
  if getRiskValue a ≥ getRiskValue b then a else b

/-- The claimed primary-risk-factor rule: "combination" for an untried
spec+image pair with non-low spec risk, "none" when both levels are low,
otherwise the dominating factor with "spec" on ties. -/
def claimPrimaryFactor (specRisk : SpecRiskInfo) (imageRisk : ImageRiskInfo) : String :=
  if imageRisk.isNewCombination ∧ specRisk.level ≠ "low" then "combination"
  else if specRisk.level = "low" ∧ imageRisk.level = "low" then "none"
  else if getRiskValue specRisk.level ≥ getRiskValue imageRisk.level then "spec"
  else "image"

/-- The claimed MCI status formula: `Failed:<F>` when all `n` VMs failed,
`Partial-Failed:<F>` when some but not all failed, otherwise the dominant
(argmax, least bucket index on ties) status, with a `Partial-` prefix
unless every VM shares it. -/
def claimMciStatus (l : List String) : String :=
  let n := l.length
  let failed := statusCount l 0
  let running := statusCount l 2
  let mm := mciArgmax l
  let dominant := statusFlagStr.getD mm.2 ""
  if failed = n then renderMciStatus ⟨false, StatusFailed, failed⟩ running n
  else if 0 < failed then renderMciStatus ⟨true, StatusFailed, failed⟩ running n
  else if l.all (fun s => s == dominant) then
    renderMciStatus ⟨false, dominant, mm.1⟩ running n
  else renderMciStatus ⟨true, dominant, mm.1⟩ running n

/-- Whether an available version id matches the requested version:
case-insensitively equal, or its digits-and-dots-filtered form has the
filtered request as a prefix. -/
def k8sVersionMatches (reqVersion verDetail : String) : Bool :=
  equalFold reqVersion verDetail ||
    strIsPrefixOf (filterDigitsAndDots reqVersion) (filterDigitsAndDots verDetail)

/-- What a match recommends: the id verbatim on case-insensitive equality,
else its filtered form. -/
def k8sMatchResult (reqVersion verDetail : String) : String :=
  if equalFold reqVersion verDetail then verDetail else filterDigitsAndDots verDetail

/-- Amended requested-version rule: the first matching available version,
in table order, rendered by `k8sMatchResult`. -/
def k8sFirstMatch (reqVersion : String) : List String → Option String
  | [] => none
  | v :: rest =>
    if k8sVersionMatches reqVersion v then some (k8sMatchResult reqVersion v)
    else k8sFirstMatch reqVersion rest

/-! Section: Concrete instances used by counterexamples and witnesses -/

/-- The S5 precondition: provisioning log for spec
`gcp+europe-north1+f1-micro` with `failureImages={ubuntu22.04}`,
`failureCount=1`, `successCount=0`. -/
def s5Log : ProvisioningLog :=
  { specId := "gcp+europe-north1+f1-micro"
    failureCount := 1
    successCount := 0
    failureTimestamps := [0]
    failureImages := ["ubuntu22.04"] }

/-- The risk analysis the analyzer derives from the S5 precondition. -/
def s5Analysis : RiskAnalysis :=
  analyzeProvisioningRiskDetailed (some s5Log) "ubuntu22.04"

/-- A log with three distinct failed images, three failures and no
successes: failure rate 1.0. -/
def threeImageLog : ProvisioningLog :=
  { specId := "spec-three"
    failureCount := 3
    successCount := 0
    failureTimestamps := [0, 1, 2]
    failureImages := ["img-a", "img-b", "img-c"]
    failureMessages := ["boom", "boom", "boom"] }

/-- A failure event carrying no image name and no error message. -/
def emptyNameFailureEvent : ProvisioningEvent :=
  { specId := "spec-e"
    cspImageName := ""
    isSuccess := false
    errorMessage := ""
    timestamp := 7 }

/-- A store holding one corrupted provisioning-log record. -/
def corruptStore : KvStore :=
  [(provisioningLogKey "spec-c", KvVal.corruptVal)]

/-- A spec-risk verdict at level "high", as the analyzer produces for the
S5 log. -/
def highSpecRisk : SpecRiskInfo :=
  { level := "high", message := "spec risk message" }

/-- An image-risk verdict at level "high" for an image with failure
history. -/
def highImageRisk : ImageRiskInfo :=
  { level := "high", message := "image risk message", hasFailedWithSpec := true }

/-- A finished two-VM MCI: one VM Running, one stuck in Creating with a
recorded creation error. -/
def wVmRunning : TbVmInfoLite :=
  { id := "vm-r", specId := "sp", cspImageName := "im", status := "Running" }

def wVmCreating : TbVmInfoLite :=
  { id := "vm-f", specId := "sp", cspImageName := "im", status := "Creating" }

def wMci : TbMciInfoLite :=
  { id := "mci-1"
    vm := [wVmRunning, wVmCreating]
    creationErrors := some
      { vmObjectCreationErrors := []
        vmCreationErrors := [{ vmName := "vm-f", error := "boom" }] } }

/-- A terminated VM record whose target status equals its reconciled
status. -/
def terminatedVmRec : VmStatusRec :=
  { status := StatusTerminated
    targetStatus := StatusTerminated
    targetAction := ActionTerminate
    systemMessage := ""
    publicIp := "1.2.3.4"
    sshPort := "22" }

/-! Section: Helper lemmas -/

theorem listContains_append_self (xs : List String) (x : String) :
    listContains (xs ++ [x]) x = true := by
  simp [listContains]

theorem kvLookup_cons (a : String) (b : KvVal) (rest : KvStore) (key : String) :
    kvLookup ((a, b) :: rest) key = if a = key then some b else kvLookup rest key := rfl

theorem kvDelete_cons (a : String) (b : KvVal) (rest : KvStore) (k : String) :
    kvDelete ((a, b) :: rest) k =
      if a = k then kvDelete rest k else (a, b) :: kvDelete rest k := rfl

theorem kvLookup_delete (store : KvStore) (k key : String) :
    kvLookup (kvDelete store k) key = if key = k then none else kvLookup store key := by
  induction store with
  | nil =>
    show (none : Option KvVal) = if key = k then none else none
    split <;> rfl
  | cons p rest ih =>
    obtain ⟨k', v'⟩ := p
    rw [kvDelete_cons]
    by_cases hk : k' = k
    · rw [if_pos hk, ih, kvLookup_cons]
      by_cases hkey : key = k
      · simp [hkey]
      · have hne : ¬ k' = key := by rw [hk]; exact fun h => hkey h.symm
        simp [hkey, hne]
    · rw [if_neg hk, kvLookup_cons, kvLookup_cons, ih]
      by_cases hkey : k' = key
      · have h2 : ¬ key = k := fun h => hk (hkey.trans h)
        simp [hkey, h2]
      · simp [hkey]

theorem getProvisioningLogKv_preserves (store : KvStore) (sp key : String)
    (h : kvLookup store key ≠ some KvVal.corruptVal) :
    kvLookup (getProvisioningLogKv store sp).2 key = kvLookup store key := by
  unfold getProvisioningLogKv
  cases hl : kvLookup store (provisioningLogKey sp) with
  | none => rfl
  | some v =>
    cases v with
    | emptyVal => rfl
    | logVal plog => rfl
    | corruptVal =>
      show kvLookup (kvDelete store (provisioningLogKey sp)) key = _
      rw [kvLookup_delete, if_neg]
      intro hkey
      rw [hkey] at h
      exact h hl

/-! Section: Claim C1 -/

/-- Claim C1, counterexample: on the S5 precondition the overall
verdict has level "high" but `primaryRiskFactor` "spec" (the spec tie-break
wins because the failure rate 1.0 also drives the spec risk to "high"),
not "image", and no recommendation mentions a "different image". -/
theorem c1_counterexample :
    s5Analysis.overallRisk.level = "high" ∧
    s5Analysis.overallRisk.primaryRiskFactor = "spec" ∧
    s5Analysis.overallRisk.primaryRiskFactor ≠ "image" ∧
    s5Analysis.recommendations.any (fun r => strContains r "different image") = false := by
  exact ⟨rfl, rfl, by decide, rfl⟩

/-- Claim C1, amended: given the stored S5 provisioning log
(spec `gcp+europe-north1+f1-micro`, `failureImages={ubuntu22.04}`,
`failureCount=1`, `successCount=0`), reviewing that spec+image yields an
overall risk verdict with level "high" and primaryRiskFactor "spec", and
at least one recommendation contains the words
"different VM specification". -/
theorem c1_thm :
    s5Analysis.overallRisk.level = "high" ∧
    s5Analysis.overallRisk.primaryRiskFactor = "spec" ∧
    s5Analysis.recommendations.any (fun r => strContains r "different VM specification") = true := by
  refine ⟨rfl, rfl, ?_⟩
  rfl

/-! Section: Claim C2 -/

/-- Claim C2, counterexample: a log with 3 distinct failed images, no
successes and failure rate 1.0 is rated "medium" by the analyzer (the
3-images-no-success branch fires first) although the claimed rule demands
"high" (failure rate 1.0 is at least 0.8). -/
theorem c2_counterexample :
    (analyzeProvisioningRiskDetailed (some threeImageLog) "img-x").specRisk.level = "medium" ∧
    claimSpecRiskLevel threeImageLog.failureImages.length threeImageLog.successImages.length
      threeImageLog.failureCount threeImageLog.successCount = "high" ∧
    ("medium" : String) ≠ "high" := by
  refine ⟨rfl, ?_, by decide⟩
  decide

/-- Claim C2, amended: the spec-level risk applies the claimed thresholds
in the source order — high for at least 10 distinct failed images; else
medium for at least 5, or for at least 3 with zero succeeded images; else
high for failure rate at least 0.8; else medium for failure rate at least
0.5; else low. -/
theorem c2_thm (plog : ProvisioningLog) (img : String)
    (h : 0 < plog.failureCount + plog.successCount) :
    (analyzeProvisioningRiskDetailed (some plog) img).specRisk.level =
      amendedSpecRiskLevel plog.failureImages.length plog.successImages.length
        plog.failureCount plog.successCount := by
  have h0 : plog.failureCount + plog.successCount ≠ 0 := Nat.pos_iff_ne_zero.mp h
  simp only [analyzeProvisioningRiskDetailed, h0, if_false]
  rfl

/-- Witness for `c2_thm` at the three-image log. -/
theorem c2_witness :
    (analyzeProvisioningRiskDetailed (some threeImageLog) "img-x").specRisk.level =
      amendedSpecRiskLevel threeImageLog.failureImages.length
        threeImageLog.successImages.length threeImageLog.failureCount
        threeImageLog.successCount :=
  c2_thm threeImageLog "img-x" (by decide)

/-! Section: Claim C4 -/

/-- Claim C4, counterexample: a failure event whose `cspImageName` is the
empty string increments the failure count but does not add its (empty)
image name to `failureImages`, and its (empty) error message is not
pushed. -/
theorem c4_counterexample :
    emptyNameFailureEvent.isSuccess = false ∧
    recordProvisioningEvent none emptyNameFailureEvent =
      some { specId := "spec-e", failureCount := 1, failureTimestamps := [7] } ∧
    listContains [] emptyNameFailureEvent.cspImageName = false := by
  exact ⟨rfl, rfl, rfl⟩

/-- Claim C4, amended: a failure event always increments `failureCount`
and appends its timestamp to `failureTimestamps`; it records the
`cspImageName` of the event in `failureImages` when that name is nonempty and pushes the
error message when it is nonempty.  A success event is persisted iff
`failureCount > 0` at event time; when `failureCount` is 0 nothing is
saved and no log record is created. -/
theorem c4_thm (pre : Option ProvisioningLog) (ev : ProvisioningEvent) :
    (ev.isSuccess = false →
      ∃ newLog, recordProvisioningEvent pre ev = some newLog ∧
        newLog.failureCount = (pre.getD { specId := ev.specId }).failureCount + 1 ∧
        newLog.failureTimestamps =
          (pre.getD { specId := ev.specId }).failureTimestamps ++ [ev.timestamp] ∧
        (ev.cspImageName ≠ "" → listContains newLog.failureImages ev.cspImageName = true) ∧
        (ev.errorMessage ≠ "" →
          newLog.failureMessages =
            (pre.getD { specId := ev.specId }).failureMessages ++ [ev.errorMessage])) ∧
    (ev.isSuccess = true →
      ((recordProvisioningEvent pre ev).isSome ↔
        0 < (pre.getD { specId := ev.specId }).failureCount)) := by
  constructor
  · intro hf
    unfold recordProvisioningEvent
    rw [hf]
    simp only [Bool.false_eq_true, if_false]
    set cur := pre.getD { specId := ev.specId } with hcur
    by_cases hm : ev.mciId ≠ ""
    · simp only [hm, if_true, if_pos hm]
      refine ⟨_, rfl, rfl, rfl, ?_, ?_⟩
      · intro hi
        by_cases hc : listContains cur.failureImages ev.cspImageName
        · simpa [hi, hc] using hc
        · simp [hi, hc, listContains_append_self]
      · intro hmsg
        simp [hmsg]
    · simp only [hm, if_false, if_neg hm]
      refine ⟨_, rfl, rfl, rfl, ?_, ?_⟩
      · intro hi
        by_cases hc : listContains cur.failureImages ev.cspImageName
        · simpa [hi, hc] using hc
        · simp [hi, hc, listContains_append_self]
      · intro hmsg
        simp [hmsg]
  · intro hs
    by_cases hfc : 0 < (pre.getD { specId := ev.specId }).failureCount
    · refine ⟨fun _ => hfc, fun _ => ?_⟩
      simp [recordProvisioningEvent, hs, hfc, gt_iff_lt]
    · refine ⟨fun hsome => ?_, fun hpos => absurd hpos hfc⟩
      exfalso
      simp [recordProvisioningEvent, hs, hfc, gt_iff_lt] at hsome

/-- Witness for `c4_thm`: a failure event with a nonempty image name
and message on an empty store. -/
theorem c4_witness :
    ∃ newLog, recordProvisioningEvent none
      { specId := "s", cspImageName := "img", isSuccess := false,
        errorMessage := "m", timestamp := 3 } = some newLog ∧
      newLog.failureCount = 1 ∧
      listContains newLog.failureImages "img" = true := by
  obtain ⟨newLog, hsome, hcount, -, himg, -⟩ :=
    (c4_thm none
      { specId := "s", cspImageName := "img", isSuccess := false,
        errorMessage := "m", timestamp := 3 }).1 rfl
  exact ⟨newLog, hsome, hcount.trans rfl, himg (by decide)⟩

/-! Section: Claim C7 -/

/-- Claim C7, counterexample: a VM whose reconciled status equals its
target status `Terminated` is not finalized to Complete/Complete — the
source pins it to Terminated/Terminate and does not re-read the public IP
or SSH port. -/
theorem c7_counterexample :
    terminatedVmRec.targetStatus = terminatedVmRec.status ∧
    (fetchVmStatusFinalize terminatedVmRec "9.9.9.9" "2222").targetStatus = StatusTerminated ∧
    (fetchVmStatusFinalize terminatedVmRec "9.9.9.9" "2222").targetStatus ≠ StatusComplete ∧
    (fetchVmStatusFinalize terminatedVmRec "9.9.9.9" "2222").targetAction = ActionTerminate ∧
    (fetchVmStatusFinalize terminatedVmRec "9.9.9.9" "2222").publicIp = "1.2.3.4" := by
  exact ⟨rfl, rfl, by decide, rfl, rfl⟩

/-- Claim C7, amended: when the reconciled status equals the targetStatus
and the targetStatus is not Terminated, the reconciler sets targetStatus
and targetAction to Complete and re-reads the public IP and SSH port into
the persisted record; when the targetStatus is Terminated it instead pins
status/targetStatus to Terminated and targetAction to Terminate without
re-reading. -/
theorem c7_thm (rec : VmStatusRec) (ip port : String)
    (heq : rec.targetStatus = rec.status) :
    (rec.targetStatus ≠ StatusTerminated →
      fetchVmStatusFinalize rec ip port =
        { rec with
          systemMessage := rec.targetStatus ++ "==" ++ rec.status
          targetStatus := StatusComplete
          targetAction := ActionComplete
          publicIp := ip
          sshPort := port }) ∧
    (rec.targetStatus = StatusTerminated →
      fetchVmStatusFinalize rec ip port =
        { rec with
          targetStatus := StatusTerminated
          targetAction := ActionTerminate
          status := StatusTerminated
          systemMessage := "terminated VM. No action is acceptable except deletion" }) := by
  constructor
  · intro hne
    unfold fetchVmStatusFinalize
    rw [if_pos heq, if_pos hne]
  · intro hterm
    unfold fetchVmStatusFinalize
    rw [if_pos heq, if_neg (by simp [hterm])]

/-- Witness for `c7_thm`: a VM that reached its Running target. -/
theorem c7_witness :
    fetchVmStatusFinalize
      { status := "Running", targetStatus := "Running", targetAction := "Create",
        systemMessage := "", publicIp := "old", sshPort := "22" } "new-ip" "2022" =
      { status := "Running", targetStatus := StatusComplete, targetAction := ActionComplete,
        systemMessage := "Running==Running", publicIp := "new-ip", sshPort := "2022" } := by
  rw [(c7_thm
      { status := "Running", targetStatus := "Running", targetAction := "Create",
        systemMessage := "", publicIp := "old", sshPort := "22" } "new-ip" "2022" rfl).1
    (by decide)]
  rfl

/-! Section: Claim C9 -/

/-- Claim C9, counterexample: reviewing a request whose spec has a
corrupted provisioning-log record deletes that record from the store, so
Review is not free of state mutation. -/
theorem c9_counterexample :
    kvLookup corruptStore (provisioningLogKey "spec-c") = some KvVal.corruptVal ∧
    kvLookup (reviewMciDynamicReqStore corruptStore [("spec-c", true)])
      (provisioningLogKey "spec-c") = none := by
  exact ⟨rfl, rfl⟩

/-- Claim C9, amended: Review mutates no key except provisioning-log keys
holding corrupted records, which are deleted on read; every key whose
stored value is not corrupted holds exactly the value it held before the
call. -/
theorem c9_thm (store : KvStore) (vmReqs : List (String × Bool)) (key : String)
    (h : kvLookup store key ≠ some KvVal.corruptVal) :
    kvLookup (reviewMciDynamicReqStore store vmReqs) key = kvLookup store key := by
  induction vmReqs generalizing store with
  | nil => rfl
  | cons req rest ih =>
    obtain ⟨commonSpec, specFound⟩ := req
    unfold reviewMciDynamicReqStore
    cases specFound with
    | false => exact ih store h
    | true =>
      simp only [if_true]
      have hpres := getProvisioningLogKv_preserves store commonSpec key h
      rw [ih _ (by rw [hpres]; exact h), hpres]

/-- Witness for `c9_thm`: a store holding a well-formed log record is
untouched by a review that reads it. -/
theorem c9_witness :
    kvLookup
      (reviewMciDynamicReqStore [(provisioningLogKey "s", KvVal.logVal s5Log)]
        [("s", true)])
      (provisioningLogKey "s") =
    kvLookup [(provisioningLogKey "s", KvVal.logVal s5Log)] (provisioningLogKey "s") :=
  c9_thm [(provisioningLogKey "s", KvVal.logVal s5Log)] [("s", true)]
    (provisioningLogKey "s") (by decide)

/-! Section: Lemmas about the dominant-status scan -/

theorem maxScan_fst_le (vs : List Nat) (i m mi K : Nat) (hm : m ≤ K)
    (hv : ∀ v ∈ vs, v ≤ K) : (maxScan vs i m mi).1 ≤ K := by
  induction vs generalizing i m mi with
  | nil => exact hm
  | cons v rest ih =>
    simp only [maxScan]
    split
    · exact ih (i + 1) v i (hv v (List.mem_cons_self v rest))
        (fun w hw => hv w (List.mem_cons_of_mem v hw))
    · exact ih (i + 1) m mi hm (fun w hw => hv w (List.mem_cons_of_mem v hw))

theorem le_maxScan_fst (vs : List Nat) (i m mi : Nat) : m ≤ (maxScan vs i m mi).1 := by
  induction vs generalizing i m mi with
  | nil => exact Nat.le_refl m
  | cons v rest ih =>
    simp only [maxScan]
    split
    · exact Nat.le_trans (Nat.le_of_lt (by assumption)) (ih (i + 1) v i)
    · exact ih (i + 1) m mi

theorem mem_le_maxScan_fst (vs : List Nat) (i m mi v : Nat) (hv : v ∈ vs) :
    v ≤ (maxScan vs i m mi).1 := by
  induction vs generalizing i m mi with
  | nil => cases hv
  | cons w rest ih =>
    simp only [maxScan]
    rcases List.mem_cons.mp hv with rfl | hmem
    · split
      · exact le_maxScan_fst rest (i + 1) v i
      · exact Nat.le_trans (Nat.le_of_not_lt (by assumption)) (le_maxScan_fst rest (i + 1) m mi)
    · split
      · exact ih (i + 1) w i hmem
      · exact ih (i + 1) m mi hmem

theorem maxScan_attain (vs : List Nat) (i m mi : Nat) :
    ((maxScan vs i m mi).1 = m ∧ (maxScan vs i m mi).2 = mi) ∨
    ∃ j, j < vs.length ∧ vs.getD j 0 = (maxScan vs i m mi).1 ∧
      (maxScan vs i m mi).2 = i + j := by
  induction vs generalizing i m mi with
  | nil => exact Or.inl ⟨rfl, rfl⟩
  | cons v rest ih =>
    simp only [maxScan]
    split
    · rcases ih (i + 1) v i with ⟨h1, h2⟩ | ⟨j, hj, hg, hs⟩
      · exact Or.inr ⟨0, by simp, by simpa using h1.symm, by simpa using h2⟩
      · exact Or.inr ⟨j + 1, by simpa using hj, by simpa using hg, by omega⟩
    · rcases ih (i + 1) m mi with ⟨h1, h2⟩ | ⟨j, hj, hg, hs⟩
      · exact Or.inl ⟨h1, h2⟩
      · exact Or.inr ⟨j + 1, by simpa using hj, by simpa using hg, by omega⟩

theorem statusCount_le (l : List String) (i : Nat) : statusCount l i ≤ l.length :=
  List.countP_le_length _

theorem statusFlag_getD (l : List String) (j : Nat) (hj : j < 10) :
    (statusFlag l).getD j 0 = statusCount l j := by
  interval_cases j <;> rfl

theorem statusFlag_length (l : List String) : (statusFlag l).length = 10 := by
  simp [statusFlag]

theorem statusFlag_mem_le (l : List String) : ∀ v ∈ statusFlag l, v ≤ l.length := by
  intro v hv
  simp only [statusFlag, List.mem_map, List.mem_range] at hv
  obtain ⟨i, -, rfl⟩ := hv
  exact statusCount_le l i

theorem mciArgmax_fst_le (l : List String) : (mciArgmax l).1 ≤ l.length :=
  maxScan_fst_le _ 0 0 0 l.length (Nat.zero_le _) (statusFlag_mem_le l)

theorem statusCount_le_mciArgmax (l : List String) (i : Nat) (hi : i < 10) :
    statusCount l i ≤ (mciArgmax l).1 :=
  mem_le_maxScan_fst _ 0 0 0 _
    (List.mem_map_of_mem (statusCount l) (List.mem_range.mpr hi))

theorem bucketIdx_le_nine (s : String) : bucketIdx s ≤ 9 := by
  unfold bucketIdx
  split_ifs <;> omega

theorem alphabet_getD_bucketIdx (s : String) (h : s ∈ statusFlagStr) :
    statusFlagStr.getD (bucketIdx s) "" = s := by
  fin_cases h <;> rfl

/-- The derived maximum equals the VM count exactly when every VM carries
the dominant status (over statuses from the alphabet of the reconciler). -/
theorem mciArgmax_eq_length_iff (l : List String) (hne : l ≠ [])
    (halpha : ∀ s ∈ l, s ∈ statusFlagStr) :
    (mciArgmax l).1 = l.length ↔
      l.all (fun s => s == statusFlagStr.getD (mciArgmax l).2 "") = true := by
  have hpos : 0 < l.length := List.length_pos.mpr hne
  constructor
  · intro hmax
    rcases maxScan_attain (statusFlag l) 0 0 0 with ⟨h1, -⟩ | ⟨j, hj, hg, hs⟩
    · have : (mciArgmax l).1 = 0 := h1
      omega
    · rw [statusFlag_length] at hj
      have hcnt : statusCount l j = l.length := by
        rw [← statusFlag_getD l j hj, hg]
        exact hmax
      have hidx : (mciArgmax l).2 = j := by simpa using hs
      have hall := List.countP_eq_length.mp hcnt
      rw [List.all_eq_true]
      intro s hsmem
      have hbs : bucketIdx s = j := by simpa using hall s hsmem
      rw [hidx, ← hbs, alphabet_getD_bucketIdx s (halpha s hsmem)]
      simp
  · intro hall
    obtain ⟨s0, hs0⟩ := List.exists_mem_of_ne_nil l hne
    have hall' := List.all_eq_true.mp hall
    have hd : s0 = statusFlagStr.getD (mciArgmax l).2 "" := by
      simpa using hall' s0 hs0
    have hdmem : statusFlagStr.getD (mciArgmax l).2 "" ∈ statusFlagStr := hd ▸ halpha s0 hs0
    have hb10 : bucketIdx (statusFlagStr.getD (mciArgmax l).2 "") < 10 :=
      Nat.lt_succ_of_le (bucketIdx_le_nine _)
    have hcnt : statusCount l (bucketIdx (statusFlagStr.getD (mciArgmax l).2 "")) = l.length := by
      apply List.countP_eq_length.mpr
      intro a ha
      have : a = statusFlagStr.getD (mciArgmax l).2 "" := by simpa using hall' a ha
      simp [this]
    have h1 : l.length ≤ (mciArgmax l).1 := hcnt ▸ statusCount_le_mciArgmax l _ hb10
    have h2 : (mciArgmax l).1 ≤ l.length := mciArgmax_fst_le l
    omega

/-! Section: Claim C3 -/

/-- Claim C3: for every pair of spec-risk and image-risk verdicts (levels
drawn from low/medium/high as the analyzer produces them), the overall
risk level is the maximum of the two levels under low < medium < high, and
the primary risk factor is the dominating factor, with "spec" on ties,
"none" when both levels are low, and "combination" when the combination is
new and the spec risk is not low. -/
theorem c3_thm (specRisk : SpecRiskInfo) (imageRisk : ImageRiskInfo)
    (hs : specRisk.level = "low" ∨ specRisk.level = "medium" ∨ specRisk.level = "high")
    (hi : imageRisk.level = "low" ∨ imageRisk.level = "medium" ∨ imageRisk.level = "high") :
    (determineOverallRisk specRisk imageRisk).level =
      levelMaxClaim specRisk.level imageRisk.level ∧
    (determineOverallRisk specRisk imageRisk).primaryRiskFactor =
      claimPrimaryFactor specRisk imageRisk := by
  cases hnew : imageRisk.isNewCombination <;>
  rcases hs with hs | hs | hs <;> rcases hi with hi | hi | hi <;>
    simp [determineOverallRisk, levelMaxClaim, claimPrimaryFactor, getRiskValue, hs, hi, hnew]

/-- Witness for `c3_thm` at a high/high pair of verdicts. -/
theorem c3_witness :
    (determineOverallRisk highSpecRisk highImageRisk).level =
      levelMaxClaim highSpecRisk.level highImageRisk.level ∧
    (determineOverallRisk highSpecRisk highImageRisk).primaryRiskFactor =
      claimPrimaryFactor highSpecRisk highImageRisk :=
  c3_thm highSpecRisk highImageRisk (Or.inr (Or.inr rfl)) (Or.inr (Or.inr rfl))

/-! Section: Claim C5 -/

/-- Claim C5: for every nonempty list of VM statuses over the
alphabet of the reconciler, the derived MCI status string equals the claimed
formula — `Failed:<F> (R:<r>/<n>)` when all VMs failed, the
`Partial-Failed:<F>` override whenever some VM failed, and otherwise the
dominant (argmax) status with count, prefixed `Partial-` unless every VM
shares the dominant status — and the derivation is deterministic: it
depends only on the multiset of statuses (it is invariant under
permutation). -/
theorem c5_thm (l : List String) (hne : l ≠ [])
    (halpha : ∀ s ∈ l, s ∈ statusFlagStr) :
    getMcisStatusString l = claimMciStatus l ∧
    ∀ l', l.Perm l' → getMcisStatusString l' = getMcisStatusString l := by
  constructor
  · have hpos : 0 < l.length := List.length_pos.mpr hne
    unfold getMcisStatusString claimMciStatus mciStatusParts
    by_cases hF : 0 < statusCount l 0
    · by_cases hFn : statusCount l 0 = l.length
      · simp [hF, hFn, hpos]
      · simp [hF, hFn]
    · have hFn : ¬ statusCount l 0 = l.length := by omega
      by_cases hmax : (mciArgmax l).1 = l.length
      · have hall : ∀ x ∈ l, x = statusFlagStr.getD (mciArgmax l).2 "" := by
          simpa using (mciArgmax_eq_length_iff l hne halpha).mp hmax
        simp [hF, hFn, hmax]
        rw [if_pos (by simpa using hall)]
      · have hall : ¬ ∀ x ∈ l, x = statusFlagStr.getD (mciArgmax l).2 "" := by
          intro hx
          exact hmax ((mciArgmax_eq_length_iff l hne halpha).mpr (by simpa using hx))
        have hlt : (mciArgmax l).1 < l.length :=
          Nat.lt_of_le_of_ne (mciArgmax_fst_le l) hmax
        simp [hF, hFn, hmax, hlt]
        rw [if_neg (fun hx => hall (by simpa using hx))]
  · intro l' hperm
    have hcount : statusCount l' = statusCount l := by
      funext i
      simp only [statusCount]
      exact hperm.symm.countP_eq _
    have hlen : l'.length = l.length := hperm.symm.length_eq
    unfold getMcisStatusString mciStatusParts mciArgmax statusFlag
    rw [hcount, hlen]

/-- Witness for `c5_thm` on a mixed Running/Failed MCI and a
permutation of it. -/
theorem c5_witness :
    getMcisStatusString ["Running", "Failed"] = claimMciStatus ["Running", "Failed"] ∧
    getMcisStatusString ["Failed", "Running"] = getMcisStatusString ["Running", "Failed"] :=
  ⟨(c5_thm ["Running", "Failed"] (by decide) (by decide)).1,
   (c5_thm ["Running", "Failed"] (by decide) (by decide)).2 ["Failed", "Running"]
     (List.Perm.swap "Failed" "Running" [])⟩

/-! Section: Claim C6 -/

/-- If the deletion gate of `DelMcis` passes on a status list over the
alphabet of the reconciler, every status in the list is Terminated, Undefined
or Failed. -/
theorem deletableGate_sound (l : List String) (halpha : ∀ s ∈ l, s ∈ statusFlagStr)
    (hg : deletableGate (mciStatusOpt l) = true) :
    ∀ s ∈ l, s ∈ [StatusTerminated, StatusUndefined, StatusFailed] := by
  intro s hs
  have hlne : l ≠ [] := fun h => by subst h; cases hs
  have hie : l.isEmpty = false := by
    cases l
    · cases hs
    · rfl
  have hgs : deletableGate (some (mciStatusParts l)) = true := by
    simpa [mciStatusOpt, hie] using hg
  by_cases hF : 0 < statusCount l 0
  · by_cases hFn : statusCount l 0 = l.length
    · have hb : bucketIdx s = 0 := by
        simpa using List.countP_eq_length.mp hFn s hs
      have hgd := alphabet_getD_bucketIdx s (halpha s hs)
      rw [hb] at hgd
      rw [← hgd]
      decide
    · simp [deletableGate, mciStatusParts, hF, hFn] at hgs
  · by_cases hmax : (mciArgmax l).1 = l.length
    · have hall : ∀ x ∈ l, x = statusFlagStr.getD (mciArgmax l).2 "" := by
        simpa using (mciArgmax_eq_length_iff l hlne halpha).mp hmax
      have hsd := hall s hs
      have hparts : mciStatusParts l =
          ⟨false, statusFlagStr.getD (mciArgmax l).2 "", (mciArgmax l).1⟩ := by
        simp [mciStatusParts, hF, hmax]
      rw [hparts] at hgs
      simp only [deletableGate, Bool.not_false, Bool.true_and, Bool.or_eq_true,
        beq_iff_eq] at hgs
      rw [hsd]
      rcases hgs with (h | h) | h <;> rw [h] <;> decide
    · by_cases hlt : (mciArgmax l).1 < l.length
      · simp [deletableGate, mciStatusParts, hF, hmax, hlt] at hgs
      · exact absurd (Nat.lt_of_le_of_ne (mciArgmax_fst_le l) hmax) hlt

/-- Claim C6: for every option other than force, `DelMcis` proceeds past
its status gate only when every VM examined by that gate is Terminated,
Undefined or Failed; a refusal with a non-terminate option performs no
step at all; and with option terminate on a not-yet-terminated MCIS the
flow starts with refine, then terminate, then the 5-second wait, and when
the post-terminate statuses pass the gate it continues into the deletion
steps with no error. -/
theorem c6_thm (option : String) (pre post : List String)
    (hpre : ∀ s ∈ pre, s ∈ statusFlagStr) (hpost : ∀ s ∈ post, s ∈ statusFlagStr)
    (hforce : strToLower option ≠ "force") :
    ((delMcis option pre post).err = none →
      ∀ s ∈ delMcisFinalVms option pre post,
        s ∈ [StatusTerminated, StatusUndefined, StatusFailed]) ∧
    (strToLower option ≠ "terminate" → (delMcis option pre post).err.isSome = true →
      (delMcis option pre post).trace = []) ∧
    (strToLower option = "terminate" →
      alreadyTerminatedGate (mciStatusOpt pre) = false →
      (delMcis option pre post).trace.take 3 =
        [DelStep.refineStep, DelStep.terminateStep, DelStep.sleep5Step] ∧
      (deletableGate (mciStatusOpt post) = true →
        delMcis option pre post =
          ⟨[DelStep.refineStep, DelStep.terminateStep, DelStep.sleep5Step] ++
            delMcisDeletionSteps, none⟩)) := by
  have hf : (strToLower option == "force") = false := by simpa using hforce
  refine ⟨?_, ?_, ?_⟩
  · intro herr s hs
    by_cases hg : deletableGate (mciStatusOpt (delMcisFinalVms option pre post)) = true
    · have halpha2 : ∀ x ∈ delMcisFinalVms option pre post, x ∈ statusFlagStr := by
        unfold delMcisFinalVms
        split
        · exact hpost
        · exact hpre
      exact deletableGate_sound _ halpha2 hg s hs
    · exfalso
      have hgf : deletableGate (mciStatusOpt (delMcisFinalVms option pre post)) = false := by
        simpa using hg
      simp [delMcis, hgf, hf] at herr
  · intro hterm hsome
    have hbt : (strToLower option == "terminate") = false := by simpa using hterm
    have hrt : delMcisRunsTerminate option pre = false := by
      simp [delMcisRunsTerminate, hbt]
    by_cases hg : deletableGate (mciStatusOpt (delMcisFinalVms option pre post)) = true
    · exfalso
      simp [delMcis, hg, hrt] at hsome
    · have hgf : deletableGate (mciStatusOpt (delMcisFinalVms option pre post)) = false := by
        simpa using hg
      simp [delMcis, hgf, hf, hrt]
  · intro hterm hnt
    have hrt : delMcisRunsTerminate option pre = true := by
      simp [delMcisRunsTerminate, hnt, hterm]
    have hfv : delMcisFinalVms option pre post = post := by
      simp [delMcisFinalVms, hrt]
    constructor
    · by_cases hg : deletableGate (mciStatusOpt (delMcisFinalVms option pre post)) = true
      · simp [delMcis, hrt, hg, delMcisDeletionSteps]
      · have hgf : deletableGate (mciStatusOpt (delMcisFinalVms option pre post)) = false := by
          simpa using hg
        simp [delMcis, hrt, hgf, hf]
    · intro hg
      rw [← hfv] at hg
      simp [delMcis, hrt, hg]

/-- Witness for `c6_thm`: deleting a running single-VM MCIS with
option terminate, whose VM is Terminated after the in-flow terminate. -/
theorem c6_witness :
    delMcis "terminate" ["Running"] ["Terminated"] =
      ⟨[DelStep.refineStep, DelStep.terminateStep, DelStep.sleep5Step] ++
        delMcisDeletionSteps, none⟩ :=
  ((c6_thm "terminate" ["Running"] ["Terminated"] (by decide) (by decide)
      (by decide)).2.2 (by decide) (by decide)).2 (by decide)

/-! Section: Claim C10 -/

/-- Claim C10: recording provisioning history from a finished MCI emits
one event per VM; the event is a success iff the VM status is exactly
Running, and a failure event carries either a matching creation-error
message (from the VM-creation or VM-object-creation error lists) or the
generic message naming the VM status. -/
theorem c10_thm (mci : TbMciInfoLite) (now : Nat) (vm : TbVmInfoLite)
    (h : vm ∈ mci.vm) :
    buildProvisioningEvent mci vm now ∈ recordProvisioningEventsFromMci mci now ∧
    ((buildProvisioningEvent mci vm now).isSuccess = true ↔ vm.status = StatusRunning) ∧
    ((buildProvisioningEvent mci vm now).isSuccess = false →
      (∃ errs e, mci.creationErrors = some errs ∧
        (e ∈ errs.vmCreationErrors ∨ e ∈ errs.vmObjectCreationErrors) ∧
        vmErrMatch vm.id e = true ∧
        (buildProvisioningEvent mci vm now).errorMessage = e.error) ∨
      (buildProvisioningEvent mci vm now).errorMessage =
        "VM creation failed with status: " ++ vm.status) := by
  refine ⟨List.mem_map_of_mem _ h, ?_, ?_⟩
  · simp [buildProvisioningEvent]
  · intro hf
    have hb : (vm.status == StatusRunning) = false := by
      simpa [buildProvisioningEvent] using hf
    simp only [buildProvisioningEvent, hb, Bool.false_eq_true, if_false]
    cases hce : mci.creationErrors with
    | none => right; simp [lookupVmErrorMessage]
    | some errs =>
      by_cases hempty : lookupVmErrorMessage (some errs) vm.id = ""
      · right
        simp [hempty]
      · left
        rw [if_neg hempty]
        simp only [lookupVmErrorMessage] at hempty ⊢
        cases hfo : errs.vmObjectCreationErrors.find? (vmErrMatch vm.id) with
        | some e =>
          exact ⟨errs, e, rfl,
            Or.inr (List.mem_of_find?_eq_some hfo), List.find?_some hfo, rfl⟩
        | none =>
          cases hfv : errs.vmCreationErrors.find? (vmErrMatch vm.id) with
          | some e =>
            exact ⟨errs, e, rfl,
              Or.inl (List.mem_of_find?_eq_some hfv), List.find?_some hfv, rfl⟩
          | none =>
            simp [hfo, hfv] at hempty

/-- Witness for `c10_thm` at the stuck-in-Creating VM of the two-VM
MCI. -/
theorem c10_witness :
    buildProvisioningEvent wMci wVmCreating 5 ∈ recordProvisioningEventsFromMci wMci 5 ∧
    ((buildProvisioningEvent wMci wVmCreating 5).isSuccess = true ↔
      wVmCreating.status = StatusRunning) ∧
    ((buildProvisioningEvent wMci wVmCreating 5).isSuccess = false →
      (∃ errs e, wMci.creationErrors = some errs ∧
        (e ∈ errs.vmCreationErrors ∨ e ∈ errs.vmObjectCreationErrors) ∧
        vmErrMatch wVmCreating.id e = true ∧
        (buildProvisioningEvent wMci wVmCreating 5).errorMessage = e.error) ∨
      (buildProvisioningEvent wMci wVmCreating 5).errorMessage =
        "VM creation failed with status: " ++ wVmCreating.status) :=
  c10_thm wMci 5 wVmCreating (by decide)

/-! Section: Claim C8 -/

theorem segLt_irrefl (a : List Nat) : segLt a a = false := by
  induction a with
  | nil => rfl
  | cons x xs ih => simp [segLt, ih]

theorem segLt_trans (a : List Nat) : ∀ b c : List Nat,
    segLt a b = true → segLt b c = true → segLt a c = true := by
  induction a with
  | nil =>
    intro b c hab hbc
    cases b with
    | nil => simp [segLt] at hab
    | cons y ys =>
      cases c with
      | nil => simp [segLt] at hbc
      | cons z zs => simp [segLt]
  | cons x xs ih =>
    intro b c hab hbc
    cases b with
    | nil => simp [segLt] at hab
    | cons y ys =>
      cases c with
      | nil => simp [segLt] at hbc
      | cons z zs =>
        simp only [segLt] at hab hbc ⊢
        split_ifs at hab hbc ⊢ <;>
          first
            | rfl
            | omega
            | simp at hab
            | simp at hbc
            | exact ih ys zs hab hbc

theorem segLt_total (a : List Nat) : ∀ b : List Nat,
    segLt a b = false → a = b ∨ segLt b a = true := by
  induction a with
  | nil =>
    intro b h
    cases b with
    | nil => exact Or.inl rfl
    | cons y ys => simp [segLt] at h
  | cons x xs ih =>
    intro b h
    cases b with
    | nil => exact Or.inr (by simp [segLt])
    | cons y ys =>
      simp only [segLt] at h
      split_ifs at h with h1 h2
      · refine Or.inr ?_
        show (if y < x then true else if x < y then false else segLt ys xs) = true
        simp [h2]
      · rcases ih ys h with rfl | htail
        · have hxy : x = y := by omega
          exact Or.inl (by rw [hxy])
        · refine Or.inr ?_
          show (if y < x then true else if x < y then false else segLt ys xs) = true
          simpa [h1, h2] using htail

/-- The comparison key of one version id in the highest-version loop. -/
def k8sKey (v : String) : List Nat :=
  canonSegs (verSegs (filterDigitsAndDots v))

theorem k8sKey_not_lt_trans (a b c : String)
    (hab : segLt (k8sKey a) (k8sKey b) = false)
    (hbc : segLt (k8sKey b) (k8sKey c) = false) :
    segLt (k8sKey a) (k8sKey c) = false := by
  cases hac : segLt (k8sKey a) (k8sKey c) with
  | false => rfl
  | true =>
    exfalso
    rcases segLt_total (k8sKey a) (k8sKey b) hab with heq | hba
    · rw [heq] at hac
      rw [hac] at hbc
      cases hbc
    · rcases segLt_total (k8sKey b) (k8sKey c) hbc with heq | hcb
      · rw [← heq] at hac
        have := segLt_trans _ _ _ hac hba
        rw [segLt_irrefl] at this
        cases this
      · have h1 := segLt_trans _ _ _ hac hcb
        have h2 := segLt_trans _ _ _ h1 hba
        rw [segLt_irrefl] at h2
        cases h2

/-- The `reqVersion == ""` loop keeps a version that no available version
strictly exceeds, and returns the start value or a member of the table. -/
theorem k8sHighestLoop_spec (avail : List String) : ∀ acc : String,
    (k8sHighestLoop avail acc = acc ∨ k8sHighestLoop avail acc ∈ avail) ∧
    segLt (k8sKey (k8sHighestLoop avail acc)) (k8sKey acc) = false ∧
    ∀ v ∈ avail, segLt (k8sKey (k8sHighestLoop avail acc)) (k8sKey v) = false := by
  induction avail with
  | nil => exact fun acc => ⟨Or.inl rfl, segLt_irrefl _, by simp⟩
  | cons v rest ih =>
    intro acc
    have hstep : k8sHighestLoop (v :: rest) acc =
        k8sHighestLoop rest
          (if compareVersionsLt (filterDigitsAndDots acc) (filterDigitsAndDots v)
            then v else acc) := rfl
    by_cases hlt : compareVersionsLt (filterDigitsAndDots acc) (filterDigitsAndDots v) = true
    · have hstep' : k8sHighestLoop (v :: rest) acc = k8sHighestLoop rest v := by
        rw [hstep, if_pos hlt]
      obtain ⟨hmem, hnotv, hall⟩ := ih v
      rw [hstep']
      have hlt' : segLt (k8sKey acc) (k8sKey v) = true := hlt
      refine ⟨?_, ?_, ?_⟩
      · rcases hmem with h | h
        · exact Or.inr (by rw [h]; exact List.mem_cons_self v rest)
        · exact Or.inr (List.mem_cons_of_mem v h)
      · cases hra : segLt (k8sKey (k8sHighestLoop rest v)) (k8sKey acc) with
        | false => rfl
        | true =>
          exfalso
          have hcontra := segLt_trans _ _ _ hra hlt'
          rw [hcontra] at hnotv
          cases hnotv
      · intro w hw
        rcases List.mem_cons.mp hw with rfl | hwr
        · exact hnotv
        · exact hall w hwr
    · have hltf : compareVersionsLt (filterDigitsAndDots acc) (filterDigitsAndDots v) = false := by
        simpa using hlt
      have hstep' : k8sHighestLoop (v :: rest) acc = k8sHighestLoop rest acc := by
        rw [hstep, if_neg (by simp [hltf])]
      obtain ⟨hmem, hnotacc, hall⟩ := ih acc
      rw [hstep']
      refine ⟨?_, hnotacc, ?_⟩
      · rcases hmem with h | h
        · exact Or.inl h
        · exact Or.inr (List.mem_cons_of_mem v h)
      · intro w hw
        rcases List.mem_cons.mp hw with rfl | hwr
        · have hltf' : segLt (k8sKey acc) (k8sKey w) = false := hltf
          exact k8sKey_not_lt_trans _ _ _ hnotacc hltf'
        · exact hall w hwr

/-- The requested-version loop returns exactly the rendered first match of
the table. -/
theorem k8sReqLoop_eq (req : String) (avail : List String) :
    k8sReqLoop req avail = (k8sFirstMatch req avail).getD "" := by
  induction avail with
  | nil => rfl
  | cons v rest ih =>
    by_cases h1 : equalFold req v = true
    · simp [k8sReqLoop, k8sFirstMatch, k8sVersionMatches, k8sMatchResult, h1]
    · by_cases h2 : strIsPrefixOf (filterDigitsAndDots req) (filterDigitsAndDots v) = true
      · simp [k8sReqLoop, k8sFirstMatch, k8sVersionMatches, k8sMatchResult, h1, h2]
      · simp [k8sReqLoop, k8sFirstMatch, k8sVersionMatches, h1, h2, ih]

/-- Claim C8, counterexample: with available versions 1.2 and 1.3 and
requested version "1", both available versions match by filtered prefix
and 1.3 is strictly higher (lexicographically and numerically), yet the
source recommends 1.2 — the first match in table order, not the highest
one. -/
theorem c8_counterexample :
    getK8sRecommendVersion "gcp" "asia-northeast3" ["1.2", "1.3"] "1" = Except.ok "1.2" ∧
    k8sVersionMatches "1" "1.2" = true ∧
    k8sVersionMatches "1" "1.3" = true ∧
    ("1.2".toList < "1.3".toList) ∧
    compareVersionsLt "1.2" "1.3" = true ∧
    ("1.2" : String) ≠ "1.3" := by
  exact ⟨rfl, by decide, by decide, by decide, by decide, by decide⟩

/-- Claim C8, amended: when a version is requested, the recommendation is
the first available version in table order that matches it — taken
verbatim when it equals the request case-insensitively, otherwise its
digits-and-dots-filtered form — with an error listing the available
versions when no (nonempty-rendering) match exists; when no version is
requested, the recommendation is an available version that no available
version strictly exceeds under numeric version comparison of the filtered
forms. -/
theorem c8_thm (providerName regionName reqVersion : String) (avail : List String) :
    (reqVersion ≠ "" →
      getK8sRecommendVersion providerName regionName avail reqVersion =
        (match k8sFirstMatch reqVersion avail with
          | some v =>
            if equalFold v "" then
              Except.error (k8sNoVersionMsg providerName regionName avail)
            else Except.ok v
          | none => Except.error (k8sNoVersionMsg providerName regionName avail))) ∧
    (reqVersion = "" → ∀ r,
      getK8sRecommendVersion providerName regionName avail reqVersion = Except.ok r →
        r ∈ avail ∧
        ∀ v ∈ avail,
          compareVersionsLt (filterDigitsAndDots r) (filterDigitsAndDots v) = false) := by
  constructor
  · intro hreq
    have hbe : (reqVersion == "") = false := by simpa using hreq
    unfold getK8sRecommendVersion
    rw [hbe]
    simp only [Bool.false_eq_true, if_false, k8sReqLoop_eq]
    cases hfm : k8sFirstMatch reqVersion avail with
    | none =>
      simp only [Option.getD_none]
      rw [if_pos (by decide)]
    | some v =>
      simp only [Option.getD_some]
  · intro hreq r hok
    have hbe : (reqVersion == "") = true := by simp [hreq]
    unfold getK8sRecommendVersion at hok
    rw [hbe] at hok
    simp only [if_true] at hok
    by_cases hz : equalFold (k8sHighestLoop avail "") "" = true
    · rw [if_pos hz] at hok
      cases hok
    · rw [if_neg (by simpa using hz)] at hok
      have hr : k8sHighestLoop avail "" = r := by
        injection hok
      obtain ⟨hmem, -, hall⟩ := k8sHighestLoop_spec avail ""
      constructor
      · rcases hmem with h | h
        · exfalso
          rw [h] at hz
          exact hz rfl
        · exact hr ▸ h
      · intro v hv
        have := hall v hv
        rw [hr] at this
        exact this


/-- Witness for `c8_thm`: the requested-version branch at request "1"
over table [1.2, 1.3], and the highest-version branch over the same
table. -/
theorem c8_witness :
    getK8sRecommendVersion "gcp" "asia-northeast3" ["1.2", "1.3"] "" = Except.ok "1.3" ∧
    ("1.3" ∈ ["1.2", "1.3"] ∧
      ∀ v ∈ ["1.2", "1.3"],
        compareVersionsLt (filterDigitsAndDots "1.3") (filterDigitsAndDots v) = false) :=
  ⟨rfl, (c8_thm "gcp" "asia-northeast3" "" ["1.2", "1.3"]).2 rfl "1.3" rfl⟩

end CbTumblebug
